import Mathlib

/-!
# Verification of the gtsam_quadrics core against its specification

Shallow embedding of the repository's code, chiefly
`src/gtsam_quadrics/geometry/BoundingBoxFactor.cpp` (the measurement
functor `BoundingBoxFactor::evaluateError`, its wrappers `evaluateH1`,
`evaluateH2`, and `equals`) together with the conic/quadric geometry
declared in `src/quadricslam/geometry/DualConic.h`.

Machine doubles are modelled by an arbitrary linear ordered field `K`
(instantiated with `ℚ` for concrete evaluations and with `ℝ` where square
roots are needed).  C++ exceptions are modelled by the `Except` monad:
`QuadricProjectionException` is the exception type caught by the
`try/catch` in `evaluateError`.  The geometric callees
(`QuadricCamera::project`, `DualConic::bounds`, `DualConic::smartBounds`)
are not part of the sources, so `evaluateError` is embedded relative to a
`Geometry` record supplying them; where a claim needs their behaviour,
definitions modelled from the specification's own description are used
and marked as such.
-/

namespace GtsamQuadrics

/-- The exception kinds of the failure policy: `InvalidQuadric`,
`DegenerateConic`, `ExtremaExtractionFailure` (spec §7), plus the
exception `QuadricProjectionException("smartbounds failed")` rethrown by
the inner catch block of `evaluateError` (BoundingBoxFactor.cpp line 77). -/
inductive QuadricProjectionException where
  | invalidQuadric
  | degenerateConic
  | extremaExtractionFailure
  | smartBoundsFailed
deriving DecidableEq

/-- The error mode of a `BoundingBoxFactor`: `SIMPLE` uses
`DualConic::bounds`, `COMPLEX` (the spec's "strict") uses
`DualConic::smartBounds`. -/
inductive ErrorType where
  | SIMPLE
  | COMPLEX
deriving DecidableEq

/-- `AlignedBox2`: an axis-aligned box stored as (xmin, ymin, xmax, ymax). -/
structure AlignedBox2 (K : Type) where
  xmin : K
  ymin : K
  xmax : K
  ymax : K
deriving DecidableEq

/-- `AlignedBox2::vector()`: the box as a 4-vector in the fixed corner
ordering (xmin, ymin, xmax, ymax). -/
def AlignedBox2.vector {K : Type} (b : AlignedBox2 K) : Fin 4 → K :=
  ![b.xmin, b.ymin, b.xmax, b.ymax]

/-- `DualConic`: a dual conic, wrapping its 3x3 matrix `dC_`
(DualConic.h line 35). -/
structure DualConic (K : Type) where
  dC : Matrix (Fin 3) (Fin 3) K

/-- The result of `QuadricCamera::project`: the projected dual conic
together with the 9x6 Jacobian `dC_dx` of the conic w.r.t. the pose
tangent and the 9x9 Jacobian `dC_dq` w.r.t. the quadric tangent
(BoundingBoxFactor.cpp lines 44-47). -/
structure ProjectResult (K : Type) where
  conic : DualConic K
  dC_dx : Matrix (Fin 9) (Fin 6) K
  dC_dq : Matrix (Fin 9) (Fin 9) K

/-- The result of `DualConic::bounds` / `smartBounds`: the predicted box
and the 4x9 Jacobian `db_dC` of the box w.r.t. the conic entries
(BoundingBoxFactor.cpp lines 59-66). -/
structure BoundsResult (K : Type) where
  box : AlignedBox2 K
  db_dC : Matrix (Fin 4) (Fin 9) K

/-- The geometric callees of `evaluateError`, whose implementations live
outside the provided sources: `QuadricCamera::project`,
`DualConic::bounds` and `DualConic::smartBounds`.  Each may raise a
`QuadricProjectionException`, modelled by `Except`. -/
structure Geometry (P Q C K : Type) where
  project : Q → P → C → Except QuadricProjectionException (ProjectResult K)
  bounds : DualConic K → Except QuadricProjectionException (BoundsResult K)
  smartBounds : DualConic K → C → Except QuadricProjectionException (BoundsResult K)

/-- The state of a `BoundingBoxFactor` instance: the measured box, the
calibration, the noise model (opaque to the core), the two keys, and the
`SIMPLE`/`COMPLEX` error mode. -/
structure BoundingBoxFactor (C N K : Type) where
  measured : AlignedBox2 K
  calibration : C
  noiseModel : N
  key1 : Nat
  key2 : Nat
  errorType : ErrorType

/-- The residual bundle produced by one evaluation: the 4-vector residual
plus the optional Jacobians (present exactly when requested). -/
structure EvalOutput (K : Type) where
  error : Fin 4 → K
  H1 : Option (Matrix (Fin 4) (Fin 6) K)
  H2 : Option (Matrix (Fin 4) (Fin 9) K)

/-- The bounds computation of `evaluateError` (BoundingBoxFactor.cpp lines
58-81): `SIMPLE` mode calls `bounds`; `COMPLEX` mode calls `smartBounds`
and rethrows any of its failures as
`QuadricProjectionException("smartbounds failed")` (line 77). -/
def boundsCall {P Q C N K : Type} (G : Geometry P Q C K) (f : BoundingBoxFactor C N K)
    (conic : DualConic K) : Except QuadricProjectionException (BoundsResult K) :=
  match f.errorType with
  | ErrorType.SIMPLE => G.bounds conic
  | ErrorType.COMPLEX =>
    match G.smartBounds conic f.calibration with
    | Except.ok r => Except.ok r
    | Except.error _ => Except.error QuadricProjectionException.smartBoundsFailed

/-- The body of the `try` block of `evaluateError` (BoundingBoxFactor.cpp
lines 34-133, with the compile-time constant `NUMERICAL_DERIVATIVE =
false`): project the quadric, extract bounds, subtract the measurement,
and chain the Jacobians `db_dC * dC_dx` and `db_dC * dC_dq` when
requested.  `h1`/`h2` model whether the optional output arguments `H1`
and `H2` were supplied by the caller. -/
def evaluateErrorBody {P Q C N K : Type} [LinearOrderedField K] (G : Geometry P Q C K)
    (f : BoundingBoxFactor C N K) (pose : P) (quadric : Q) (h1 h2 : Bool) :
    Except QuadricProjectionException (EvalOutput K) :=
  match G.project quadric pose f.calibration with
  | Except.error e => Except.error e
  | Except.ok pr =>
    match boundsCall G f pr.conic with
    | Except.error e => Except.error e
    | Except.ok br =>
      Except.ok
        { error := fun i => br.box.vector i - f.measured.vector i
          H1 := if h1 then some (br.db_dC * pr.dC_dx) else none
          H2 := if h2 then some (br.db_dC * pr.dC_dq) else none }

/-- The fallback produced by the `catch` block of `evaluateError`
(BoundingBoxFactor.cpp lines 137-156): residual components all 1000, zero
4x6 and 4x9 Jacobians when requested. -/
def fallbackOutput {K : Type} [LinearOrderedField K] (h1 h2 : Bool) : EvalOutput K :=
  { error := fun _ => 1000
    H1 := if h1 then some 0 else none
    H2 := if h2 then some 0 else none }

/-- `BoundingBoxFactor::evaluateError` (BoundingBoxFactor.cpp lines
31-159): the try body with the catch-all handler for
`QuadricProjectionException`.  The function is total — no exception
escapes to the caller. -/
def evaluateError {P Q C N K : Type} [LinearOrderedField K] (G : Geometry P Q C K)
    (f : BoundingBoxFactor C N K) (pose : P) (quadric : Q) (h1 h2 : Bool) : EvalOutput K :=
  match evaluateErrorBody G f pose quadric h1 h2 with
  | Except.ok out => out
  | Except.error _ => fallbackOutput h1 h2

/-- `BoundingBoxFactor::evaluateH1` (BoundingBoxFactor.cpp lines 162-166):
calls `evaluateError` requesting only `H1` and returns the written matrix. -/
def evaluateH1 {P Q C N K : Type} [LinearOrderedField K] (G : Geometry P Q C K)
    (f : BoundingBoxFactor C N K) (pose : P) (quadric : Q) : Matrix (Fin 4) (Fin 6) K :=
  (evaluateError G f pose quadric true false).H1.getD 0

/-- `BoundingBoxFactor::evaluateH2` (BoundingBoxFactor.cpp lines 169-173):
calls `evaluateError` requesting only `H2` and returns the written matrix. -/
def evaluateH2 {P Q C N K : Type} [LinearOrderedField K] (G : Geometry P Q C K)
    (f : BoundingBoxFactor C N K) (pose : P) (quadric : Q) : Matrix (Fin 4) (Fin 9) K :=
  (evaluateError G f pose quadric false true).H2.getD 0

/-- `BoundingBoxFactor::equals` (BoundingBoxFactor.cpp lines 197-203):
compares measured box, calibration, noise model and the two keys, using
the component types' own `equals` predicates (whose implementations are
external to the sources, hence parameters here).  Note `errorType_` is
not compared. -/
def BoundingBoxFactor.equalsFn {C N K : Type}
    (boxEq : AlignedBox2 K → AlignedBox2 K → K → Bool)
    (calibEq : C → C → K → Bool) (noiseEq : N → N → K → Bool)
    (f other : BoundingBoxFactor C N K) (tol : K) : Bool :=
  boxEq f.measured other.measured tol &&
    calibEq f.calibration other.calibration tol &&
    noiseEq f.noiseModel other.noiseModel tol &&
    (f.key1 == other.key1) && (f.key2 == other.key2)

/-- The method `evaluateError` with the factor instance threaded as
explicit state (each field read goes through the state), to express that
the `const` method leaves the instance unchanged on every path. -/
def evaluateErrorM {P Q C N K : Type} [LinearOrderedField K] (G : Geometry P Q C K)
    (pose : P) (quadric : Q) (h1 h2 : Bool) :
    StateM (BoundingBoxFactor C N K) (EvalOutput K) := do
  let f ← get
  match G.project quadric pose f.calibration with
  | Except.error _ => pure (fallbackOutput h1 h2)
  | Except.ok pr =>
    let f2 ← get
    match boundsCall G f2 pr.conic with
    | Except.error _ => pure (fallbackOutput h1 h2)
    | Except.ok br =>
      let f3 ← get
      pure
        { error := fun i => br.box.vector i - f3.measured.vector i
          H1 := if h1 then some (br.db_dC * pr.dC_dx) else none
          H2 := if h2 then some (br.db_dC * pr.dC_dq) else none }

/-! ## Concrete instances used to witness the theorems -/

/-- A geometry backend whose projection always fails with
`DegenerateConic`. -/
def failGeometry : Geometry Unit Unit Unit ℚ :=
  { project := fun _ _ _ => Except.error QuadricProjectionException.degenerateConic
    bounds := fun _ => Except.error QuadricProjectionException.degenerateConic
    smartBounds := fun _ _ => Except.error QuadricProjectionException.extremaExtractionFailure }

/-- A geometry backend that always succeeds, with fixed results. -/
def okGeometry : Geometry Unit Unit Unit ℚ :=
  { project := fun _ _ _ => Except.ok ⟨⟨1⟩, 0, 0⟩
    bounds := fun _ => Except.ok ⟨⟨2, 3, 7, 11⟩, 0⟩
    smartBounds := fun _ _ => Except.ok ⟨⟨2, 3, 7, 11⟩, 0⟩ }

/-- A concrete measured box. -/
def testBox : AlignedBox2 ℚ := ⟨0, 0, 1, 1⟩

/-- A concrete factor in `SIMPLE` mode. -/
def testFactor : BoundingBoxFactor Unit Unit ℚ :=
  { measured := testBox, calibration := (), noiseModel := ()
    key1 := 1, key2 := 2, errorType := ErrorType.SIMPLE }

/-! ## DualConic normalization and classification (spec-modelled) -/

/-- Modelled from the spec: helper for `DualConic::normalize`, whose
implementation is absent from the sources (DualConic.h line 61 declares
it only).  The largest absolute value among the nine matrix entries (the
matrix infinity norm used for "unit infinity-norm" rescaling). -/
def conicMaxAbs {K : Type} [LinearOrderedField K] (Cm : Matrix (Fin 3) (Fin 3) K) : K :=
  Finset.univ.sup' Finset.univ_nonempty fun p : Fin 3 × Fin 3 => |Cm p.1 p.2|

/-- Modelled from the spec: `DualConic::normalize`, whose implementation
is absent from the sources — "rescales the matrix for numerical stability
without changing the represented geometric locus", "scaled so the matrix
has unit infinity-norm" (spec §3, §4.2). -/
def DualConic.normalize {K : Type} [LinearOrderedField K] (c : DualConic K) : DualConic K :=
  ⟨(conicMaxAbs c.dC)⁻¹ • c.dC⟩

/-- Modelled from the spec: `DualConic::isDegenerate`, whose
implementation is absent from the sources — "true when the determinant of
the conic matrix is within a numerical tolerance of zero" (spec §4.2),
with exact arithmetic standing in for the tolerance. -/
def DualConic.isDegenerate {K : Type} [LinearOrderedField K] (c : DualConic K) : Prop :=
  c.dC.det = 0

/-- Modelled from the spec: `DualConic::isEllipse`, whose implementation
is absent from the sources — "true when non-degenerate and the conic's
quadratic form has a definite leading submatrix" (spec §4.2), definiteness
of the leading 2x2 submatrix being positivity of its determinant. -/
def DualConic.isEllipse {K : Type} [LinearOrderedField K] (c : DualConic K) : Prop :=
  ¬c.isDegenerate ∧ 0 < c.dC 0 0 * c.dC 1 1 - c.dC 0 1 * c.dC 1 0

/-! ## Quadric manifold operations (spec-modelled) -/

/-- The tangent-space retraction / local-coordinates pair for the pose
type, supplied by the host framework (spec §6); its implementation is
external to the sources. -/
structure PoseOps (P K : Type) where
  retract : P → (Fin 6 → K) → P
  localCoordinates : P → P → Fin 6 → K

/-- A constrained dual quadric as a pose plus three radii, the semantic
attributes of `ConstrainedDualQuadric` (spec §3). -/
structure QuadricPR (P K : Type) where
  pose : P
  radii : Fin 3 → K

/-- Modelled from the spec: `ConstrainedDualQuadric::retract`, whose
implementation is absent from the sources — "applies a tangent-space
perturbation (3 for pose rotation, 3 for pose translation, 3 for radii)
to produce a new Quadric" (spec §4.1): the first six tangent components
retract the pose, the last three are added to the radii. -/
def QuadricPR.retract {P K : Type} [LinearOrderedField K] (ops : PoseOps P K)
    (q : QuadricPR P K) (delta : Fin 9 → K) : QuadricPR P K :=
  { pose := ops.retract q.pose fun i => delta (Fin.castLE (by omega) i)
    radii := fun i => q.radii i + delta ⟨6 + (i : ℕ), by omega⟩ }

/-- Modelled from the spec: `ConstrainedDualQuadric::localCoordinates`,
whose implementation is absent from the sources — "inverse of retract"
(spec §4.1): pose local coordinates in the first six components, radii
differences in the last three. -/
def QuadricPR.localCoordinates {P K : Type} [LinearOrderedField K] (ops : PoseOps P K)
    (q other : QuadricPR P K) : Fin 9 → K := fun i =>
  if h : (i : ℕ) < 6 then ops.localCoordinates q.pose other.pose ⟨i, h⟩
  else other.radii ⟨(i : ℕ) - 6, by omega⟩ - q.radii ⟨(i : ℕ) - 6, by omega⟩

/-! ## Bounds extraction (spec-modelled) -/

/-- Modelled from the spec: the discriminant of the vertical tangent-line
condition of a dual conic (`DualConic::bounds` is absent from the
sources; spec §4.2 derives the box edges from "the closed-form
tangent-line conditions of a dual conic").  A line (1, 0, -x) is tangent
to the dual conic C iff C22·x² - 2·C02·x + C00 = 0. -/
def discX {K : Type} [LinearOrderedField K] (Cm : Matrix (Fin 3) (Fin 3) K) : K :=
  Cm 0 2 ^ 2 - Cm 0 0 * Cm 2 2

/-- Modelled from the spec: the discriminant of the horizontal
tangent-line condition, for lines (0, 1, -y): C22·y² - 2·C12·y + C11 = 0. -/
def discY {K : Type} [LinearOrderedField K] (Cm : Matrix (Fin 3) (Fin 3) K) : K :=
  Cm 1 2 ^ 2 - Cm 1 1 * Cm 2 2

/-- Modelled from the spec: the condition under which `bounds` succeeds —
the tangent-line conditions have real solutions and the leading
coefficient is nonzero; otherwise "the conic is degenerate and bounds
cannot be defined" and `DegenerateConic` is raised (spec §4.2). -/
def BoundsWellPosed {K : Type} [LinearOrderedField K] (Cm : Matrix (Fin 3) (Fin 3) K) : Prop :=
  0 ≤ discX Cm ∧ 0 ≤ discY Cm ∧ Cm 2 2 ≠ 0

instance {K : Type} [LinearOrderedField K] [DecidableEq K]
    [DecidableRel fun a b : K => a ≤ b] (Cm : Matrix (Fin 3) (Fin 3) K) :
    Decidable (BoundsWellPosed Cm) := by
  unfold BoundsWellPosed
  infer_instance

/-- Modelled from the spec: the box produced by `DualConic::bounds` on a
well-posed conic (implementation absent from the sources) — the two
tangent vertical lines and the two tangent horizontal lines, ordered into
an axis-aligned box (spec §3 requires every produced Box to satisfy
xmin ≤ xmax, ymin ≤ ymax). -/
noncomputable def specBounds (Cm : Matrix (Fin 3) (Fin 3) ℝ) : AlignedBox2 ℝ :=
  { xmin := min ((Cm 0 2 + Real.sqrt (discX Cm)) / Cm 2 2)
      ((Cm 0 2 - Real.sqrt (discX Cm)) / Cm 2 2)
    ymin := min ((Cm 1 2 + Real.sqrt (discY Cm)) / Cm 2 2)
      ((Cm 1 2 - Real.sqrt (discY Cm)) / Cm 2 2)
    xmax := max ((Cm 0 2 + Real.sqrt (discX Cm)) / Cm 2 2)
      ((Cm 0 2 - Real.sqrt (discX Cm)) / Cm 2 2)
    ymax := max ((Cm 1 2 + Real.sqrt (discY Cm)) / Cm 2 2)
      ((Cm 1 2 - Real.sqrt (discY Cm)) / Cm 2 2) }

/-- Modelled from the spec: `DualConic::bounds` as a fallible operation —
returns the box on a well-posed conic and raises `DegenerateConic`
otherwise (spec §4.2). -/
noncomputable def specBoundsE (c : DualConic ℝ) :
    Except QuadricProjectionException (AlignedBox2 ℝ) :=
  if BoundsWellPosed c.dC then Except.ok (specBounds c.dC)
  else Except.error QuadricProjectionException.degenerateConic

/-- A concrete well-posed conic matrix (over ℝ) for the C5 witness. -/
def boundsWitnessConic : Matrix (Fin 3) (Fin 3) ℝ := !![0, 0, 1; 0, 0, 1; 1, 1, -1]

/-! ## Projection geometry (spec-modelled) for the camera-at-center claim -/

/-- A rigid 3D pose: rotation matrix and translation (camera-to-world). -/
structure Pose3 (K : Type) where
  R : Matrix (Fin 3) (Fin 3) K
  t : Fin 3 → K

/-- Calibration `Cal3_S2`: intrinsics (fx, fy, skew, principal point). -/
structure Cal3S2 (K : Type) where
  fx : K
  fy : K
  s : K
  u0 : K
  v0 : K

/-- The upper-triangular intrinsic matrix of a `Cal3_S2`. -/
def Cal3S2.matrix {K : Type} [LinearOrderedField K] (c : Cal3S2 K) :
    Matrix (Fin 3) (Fin 3) K :=
  !![c.fx, c.s, c.u0; 0, c.fy, c.v0; 0, 0, 1]

/-- A constrained dual quadric: an ellipsoid pose and three radii
(spec §3: 6 + 3 = 9 DOF). -/
structure ConstrainedDualQuadric (K : Type) where
  pose : Pose3 K
  radii : Fin 3 → K

/-- A vector as a single-column matrix (for block constructions). -/
def colVec {K : Type} (v : Fin 3 → K) : Matrix (Fin 3) (Fin 1) K :=
  Matrix.of fun i _ => v i

/-- The 3x4 world-to-camera extrinsic matrix [Rᵀ | -Rᵀt] of a camera
pose, with the homogeneous column index modelled as `Fin 3 ⊕ Fin 1`. -/
def Pose3.extrinsic {K : Type} [LinearOrderedField K] (p : Pose3 K) :
    Matrix (Fin 3) (Fin 3 ⊕ Fin 1) K :=
  p.R.transpose * Matrix.fromColumns 1 (colVec (fun i => -(p.t i)))

/-- The homogeneous 4x4 pose matrix [R c; 0 1] of the quadric's pose. -/
def ConstrainedDualQuadric.poseMatrix {K : Type} [LinearOrderedField K]
    (q : ConstrainedDualQuadric K) : Matrix (Fin 3 ⊕ Fin 1) (Fin 3 ⊕ Fin 1) K :=
  Matrix.fromBlocks q.pose.R (colVec q.pose.t) 0 1

/-- Modelled from the spec: the 4x4 dual-quadric matrix
Q* = Z · diag(r₁², r₂², r₃², -1) · Zᵀ of a constrained dual quadric
(spec §4.1; `ConstrainedDualQuadric::matrix` is absent from the sources). -/
def ConstrainedDualQuadric.dualMatrix {K : Type} [LinearOrderedField K]
    (q : ConstrainedDualQuadric K) : Matrix (Fin 3 ⊕ Fin 1) (Fin 3 ⊕ Fin 1) K :=
  q.poseMatrix *
    Matrix.fromBlocks (Matrix.diagonal fun i => q.radii i ^ 2) 0 0 (-1) *
    q.poseMatrix.transpose

/-- Modelled from the spec: `QuadricCamera::project`, absent from the
sources — "the projected dual conic is C* = P · Q* · Pᵀ" where
P = K·[Rᵀ | -Rᵀt] is the pinhole projection matrix (spec §4.3). -/
def specProjectConic {K : Type} [LinearOrderedField K] (q : ConstrainedDualQuadric K)
    (p : Pose3 K) (cal : Cal3S2 K) : Matrix (Fin 3) (Fin 3) K :=
  (cal.matrix * p.extrinsic) * q.dualMatrix * (cal.matrix * p.extrinsic).transpose

/-- The camera pose for the C4 witness: identity rotation, sitting at the
origin — the center of the witness ellipsoid. -/
def centerPose : Pose3 ℚ := ⟨1, fun _ => 0⟩

/-- A valid unit-radii quadric centered at the origin. -/
def centerQuadric : ConstrainedDualQuadric ℚ := ⟨⟨1, fun _ => 0⟩, fun _ => 1⟩

/-- A valid calibration for the C4 witness. -/
def centerCal : Cal3S2 ℚ := ⟨1, 1, 0, 0, 0⟩

/-- The spec-modelled geometry backend for the C4 witness: projection via
`specProjectConic`, bounds failing exactly on ill-posed conics. -/
def centerGeometry : Geometry (Pose3 ℚ) (ConstrainedDualQuadric ℚ) (Cal3S2 ℚ) ℚ :=
  { project := fun q p c => Except.ok ⟨⟨specProjectConic q p c⟩, 0, 0⟩
    bounds := fun c =>
      if BoundsWellPosed c.dC then Except.ok ⟨⟨0, 0, 0, 0⟩, 0⟩
      else Except.error QuadricProjectionException.degenerateConic
    smartBounds := fun c _ =>
      if BoundsWellPosed c.dC then Except.ok ⟨⟨0, 0, 0, 0⟩, 0⟩
      else Except.error QuadricProjectionException.extremaExtractionFailure }

/-- A factor with a valid measured box and calibration, in SIMPLE mode. -/
def centerFactor : BoundingBoxFactor (Cal3S2 ℚ) Unit ℚ :=
  { measured := ⟨0, 0, 1, 1⟩, calibration := centerCal, noiseModel := ()
    key1 := 0, key2 := 1, errorType := ErrorType.SIMPLE }


/-! ## Claims -/

/-- C1: if a `QuadricProjectionException` (`InvalidQuadric`,
`DegenerateConic`, `ExtremaExtractionFailure`, or the rethrown smartBounds
failure) is raised while computing the predicted box inside
`evaluateError` (either mode), the call returns the residual with every
component 1000, writes the 4x6 zero matrix to `H1` and the 4x9 zero
matrix to `H2` when each is requested, and no exception escapes (the
result is the total `fallbackOutput`, never a propagated error). -/
theorem evaluateError_failure_fallback {P Q C N K : Type} [LinearOrderedField K]
    (G : Geometry P Q C K) (f : BoundingBoxFactor C N K) (pose : P) (quadric : Q)
    (h1 h2 : Bool) (e : QuadricProjectionException)
    (he : evaluateErrorBody G f pose quadric h1 h2 = Except.error e) :
    evaluateError G f pose quadric h1 h2 = fallbackOutput h1 h2 ∧
    (evaluateError G f pose quadric h1 h2).error = (fun _ => (1000 : K)) ∧
    (h1 = true → (evaluateError G f pose quadric h1 h2).H1 = some 0) ∧
    (h2 = true → (evaluateError G f pose quadric h1 h2).H2 = some 0) := by
  have hev : evaluateError G f pose quadric h1 h2 = fallbackOutput h1 h2 := by
    unfold evaluateError
    rw [he]
  refine ⟨hev, ?_, ?_, ?_⟩
  · rw [hev]; rfl
  · intro hh1; rw [hev]; simp [fallbackOutput, hh1]
  · intro hh2; rw [hev]; simp [fallbackOutput, hh2]

/-- Witness for C1 at a concrete failing input. -/
theorem evaluateError_failure_fallback_witness :
    evaluateErrorBody failGeometry testFactor () () true true =
      Except.error QuadricProjectionException.degenerateConic ∧
    evaluateError failGeometry testFactor () () true true = fallbackOutput true true :=
  ⟨rfl, (evaluateError_failure_fallback failGeometry testFactor () () true true
    QuadricProjectionException.degenerateConic rfl).1⟩

/-- C2: when the predicted box is computed without error, `evaluateError`
returns exactly `predictedBox - measuredBox` componentwise, in the fixed
corner ordering (xmin, ymin, xmax, ymax). -/
theorem evaluateError_success_residual {P Q C N K : Type} [LinearOrderedField K]
    (G : Geometry P Q C K) (f : BoundingBoxFactor C N K) (pose : P) (quadric : Q)
    (h1 h2 : Bool) (pr : ProjectResult K) (br : BoundsResult K)
    (hp : G.project quadric pose f.calibration = Except.ok pr)
    (hb : boundsCall G f pr.conic = Except.ok br) :
    (evaluateError G f pose quadric h1 h2).error =
      (fun i => br.box.vector i - f.measured.vector i) ∧
    (evaluateError G f pose quadric h1 h2).error =
      ![br.box.xmin - f.measured.xmin, br.box.ymin - f.measured.ymin,
        br.box.xmax - f.measured.xmax, br.box.ymax - f.measured.ymax] := by
  have hev : (evaluateError G f pose quadric h1 h2).error =
      fun i => br.box.vector i - f.measured.vector i := by
    simp only [evaluateError, evaluateErrorBody, hp, hb]
  refine ⟨hev, hev.trans ?_⟩
  funext i
  fin_cases i <;> rfl

/-- Witness for C2 at a concrete successful input. -/
theorem evaluateError_success_residual_witness :
    (evaluateError okGeometry testFactor () () false false).error =
      (fun i => (AlignedBox2.vector ⟨2, 3, 7, 11⟩) i - testBox.vector i) :=
  (evaluateError_success_residual okGeometry testFactor () () false false
    ⟨⟨1⟩, 0, 0⟩ ⟨⟨2, 3, 7, 11⟩, 0⟩ rfl rfl).1

/-- C3: on a successful evaluation, a requested pose Jacobian equals
`db_dC * dC_dx` (the 4x9 box-by-conic Jacobian from `bounds` times the
9x6 conic-by-pose Jacobian from `project`) and a requested quadric
Jacobian equals `db_dC * dC_dq` (the same 4x9 Jacobian times the 9x9
conic-by-quadric Jacobian from `project`). -/
theorem evaluateError_jacobian_chain {P Q C N K : Type} [LinearOrderedField K]
    (G : Geometry P Q C K) (f : BoundingBoxFactor C N K) (pose : P) (quadric : Q)
    (h1 h2 : Bool) (pr : ProjectResult K) (br : BoundsResult K)
    (hp : G.project quadric pose f.calibration = Except.ok pr)
    (hb : boundsCall G f pr.conic = Except.ok br) :
    (h1 = true → (evaluateError G f pose quadric h1 h2).H1 = some (br.db_dC * pr.dC_dx)) ∧
    (h2 = true → (evaluateError G f pose quadric h1 h2).H2 = some (br.db_dC * pr.dC_dq)) := by
  constructor
  · intro hh1
    simp only [evaluateError, evaluateErrorBody, hp, hb, hh1, if_true]
  · intro hh2
    simp only [evaluateError, evaluateErrorBody, hp, hb, hh2, if_true]

/-- Witness for C3 at a concrete successful input with both Jacobians
requested. -/
theorem evaluateError_jacobian_chain_witness :
    (evaluateError okGeometry testFactor () () true true).H1 =
      some ((0 : Matrix (Fin 4) (Fin 9) ℚ) * (0 : Matrix (Fin 9) (Fin 6) ℚ)) ∧
    (evaluateError okGeometry testFactor () () true true).H2 =
      some ((0 : Matrix (Fin 4) (Fin 9) ℚ) * (0 : Matrix (Fin 9) (Fin 9) ℚ)) :=
  ⟨(evaluateError_jacobian_chain okGeometry testFactor () () true true
      ⟨⟨1⟩, 0, 0⟩ ⟨⟨2, 3, 7, 11⟩, 0⟩ rfl rfl).1 rfl,
   (evaluateError_jacobian_chain okGeometry testFactor () () true true
      ⟨⟨1⟩, 0, 0⟩ ⟨⟨2, 3, 7, 11⟩, 0⟩ rfl rfl).2 rfl⟩

/-- C8: `evaluateError` is pure — with the factor instance threaded as
explicit state, every evaluation (success or failure path, any request
flags) returns the same result as the pure function of the inputs and
leaves the instance state (measured box, calibration, noise model, keys,
mode) unchanged; no state shared across calls is mutated. -/
theorem evaluateErrorM_pure {P Q C N K : Type} [LinearOrderedField K]
    (G : Geometry P Q C K) (pose : P) (quadric : Q) (h1 h2 : Bool)
    (f : BoundingBoxFactor C N K) :
    (evaluateErrorM G pose quadric h1 h2).run f =
      (evaluateError G f pose quadric h1 h2, f) := by
  cases hp : G.project quadric pose f.calibration with
  | error e =>
    simp [evaluateErrorM, evaluateError, evaluateErrorBody, hp, StateT.run, get, getThe,
      MonadStateOf.get, StateT.get, pure, StateT.pure, bind, StateT.bind]
  | ok pr =>
    cases hb : boundsCall G f pr.conic with
    | error e =>
      simp [evaluateErrorM, evaluateError, evaluateErrorBody, hp, hb, StateT.run, get, getThe,
        MonadStateOf.get, StateT.get, pure, StateT.pure, bind, StateT.bind]
    | ok br =>
      simp [evaluateErrorM, evaluateError, evaluateErrorBody, hp, hb, StateT.run, get, getThe,
        MonadStateOf.get, StateT.get, pure, StateT.pure, bind, StateT.bind]

/-- C9: `evaluateH1` returns exactly the matrix `evaluateError` writes to
`H1` when only `H1` is requested, and `evaluateH2` the matrix written to
`H2`; on a projection failure they return the 4x6 and 4x9 zero matrices. -/
theorem evaluateH1_evaluateH2_spec {P Q C N K : Type} [LinearOrderedField K]
    (G : Geometry P Q C K) (f : BoundingBoxFactor C N K) (pose : P) (quadric : Q) :
    (evaluateError G f pose quadric true false).H1 = some (evaluateH1 G f pose quadric) ∧
    (evaluateError G f pose quadric false true).H2 = some (evaluateH2 G f pose quadric) ∧
    (∀ e, evaluateErrorBody G f pose quadric true false = Except.error e →
      evaluateH1 G f pose quadric = 0) ∧
    (∀ e, evaluateErrorBody G f pose quadric false true = Except.error e →
      evaluateH2 G f pose quadric = 0) := by
  refine ⟨?_, ?_, ?_, ?_⟩
  · cases hbody : evaluateErrorBody G f pose quadric true false with
    | error e => simp [evaluateError, evaluateH1, hbody, fallbackOutput]
    | ok out =>
      have hsome : ∃ M, out.H1 = some M := by
        cases hp : G.project quadric pose f.calibration with
        | error e => simp [evaluateErrorBody, hp] at hbody
        | ok pr =>
          cases hb : boundsCall G f pr.conic with
          | error e => simp [evaluateErrorBody, hp, hb] at hbody
          | ok br =>
            simp only [evaluateErrorBody, hp, hb, Except.ok.injEq] at hbody
            exact ⟨br.db_dC * pr.dC_dx, by rw [← hbody]; simp⟩
      obtain ⟨M, hM⟩ := hsome
      simp [evaluateError, evaluateH1, hbody, hM]
  · cases hbody : evaluateErrorBody G f pose quadric false true with
    | error e => simp [evaluateError, evaluateH2, hbody, fallbackOutput]
    | ok out =>
      have hsome : ∃ M, out.H2 = some M := by
        cases hp : G.project quadric pose f.calibration with
        | error e => simp [evaluateErrorBody, hp] at hbody
        | ok pr =>
          cases hb : boundsCall G f pr.conic with
          | error e => simp [evaluateErrorBody, hp, hb] at hbody
          | ok br =>
            simp only [evaluateErrorBody, hp, hb, Except.ok.injEq] at hbody
            exact ⟨br.db_dC * pr.dC_dq, by rw [← hbody]; simp⟩
      obtain ⟨M, hM⟩ := hsome
      simp [evaluateError, evaluateH2, hbody, hM]
  · intro e he
    simp [evaluateH1, evaluateError, he, fallbackOutput]
  · intro e he
    simp [evaluateH2, evaluateError, he, fallbackOutput]

/-- Witness for C9 at a concrete input where projection fails: the
returned Jacobians are the correctly-shaped zero matrices, and they agree
with what `evaluateError` writes. -/
theorem evaluateH1_evaluateH2_spec_witness :
    (evaluateError failGeometry testFactor () () true false).H1 =
      some (evaluateH1 failGeometry testFactor () ()) ∧
    evaluateH1 failGeometry testFactor () () = 0 ∧
    evaluateH2 failGeometry testFactor () () = 0 :=
  ⟨(evaluateH1_evaluateH2_spec failGeometry testFactor () ()).1,
   (evaluateH1_evaluateH2_spec failGeometry testFactor () ()).2.2.1
     QuadricProjectionException.degenerateConic rfl,
   (evaluateH1_evaluateH2_spec failGeometry testFactor () ()).2.2.2
     QuadricProjectionException.degenerateConic rfl⟩

/-- C10: `equals` compares only the measured box, the calibration, the
noise model and the two keys — it is insensitive to the `SIMPLE`/`COMPLEX`
error mode, and two factors that differ only in their mode are reported
equal (given the component comparisons hold on identical values). -/
theorem equalsFn_ignores_errorType {C N K : Type}
    (boxEq : AlignedBox2 K → AlignedBox2 K → K → Bool)
    (calibEq : C → C → K → Bool) (noiseEq : N → N → K → Bool)
    (f : BoundingBoxFactor C N K) (tol : K)
    (hbox : boxEq f.measured f.measured tol = true)
    (hcal : calibEq f.calibration f.calibration tol = true)
    (hnoise : noiseEq f.noiseModel f.noiseModel tol = true) :
    (∀ et : ErrorType,
      BoundingBoxFactor.equalsFn boxEq calibEq noiseEq f { f with errorType := et } tol
        = true) ∧
    (∀ (g : BoundingBoxFactor C N K) (et1 et2 : ErrorType),
      BoundingBoxFactor.equalsFn boxEq calibEq noiseEq
          { f with errorType := et1 } { g with errorType := et2 } tol
        = BoundingBoxFactor.equalsFn boxEq calibEq noiseEq f g tol) := by
  constructor
  · intro et
    simp [BoundingBoxFactor.equalsFn, hbox, hcal, hnoise]
  · intro g et1 et2
    rfl

/-- Witness for C10 at a concrete factor: a `SIMPLE` factor and the same
factor in `COMPLEX` mode are reported equal. -/
theorem equalsFn_ignores_errorType_witness :
    BoundingBoxFactor.equalsFn (fun a b _ => a == b) (fun _ _ _ => true) (fun _ _ _ => true)
      testFactor { testFactor with errorType := ErrorType.COMPLEX } 0 = true :=
  (equalsFn_ignores_errorType (fun a b _ => a == b) (fun _ _ _ => true) (fun _ _ _ => true)
    testFactor 0 (by decide) rfl rfl).1 ErrorType.COMPLEX

theorem abs_entry_le_conicMaxAbs {K : Type} [LinearOrderedField K]
    (Cm : Matrix (Fin 3) (Fin 3) K) (i j : Fin 3) : |Cm i j| ≤ conicMaxAbs Cm :=
  Finset.le_sup' (b := (i, j)) (fun p : Fin 3 × Fin 3 => |Cm p.1 p.2|)
    (Finset.mem_univ (i, j))

theorem conicMaxAbs_nonneg {K : Type} [LinearOrderedField K]
    (Cm : Matrix (Fin 3) (Fin 3) K) : 0 ≤ conicMaxAbs Cm :=
  le_trans (abs_nonneg (Cm 0 0)) (abs_entry_le_conicMaxAbs Cm 0 0)

theorem conicMaxAbs_eq_zero_iff {K : Type} [LinearOrderedField K]
    (Cm : Matrix (Fin 3) (Fin 3) K) : conicMaxAbs Cm = 0 ↔ Cm = 0 := by
  constructor
  · intro h
    ext i j
    have h1 := abs_entry_le_conicMaxAbs Cm i j
    rw [h] at h1
    simpa using abs_nonpos_iff.mp h1
  · intro h
    subst h
    simp [conicMaxAbs]

theorem conicMaxAbs_smul {K : Type} [LinearOrderedField K]
    (k : K) (Cm : Matrix (Fin 3) (Fin 3) K) :
    conicMaxAbs (k • Cm) = |k| * conicMaxAbs Cm := by
  have h := Finset.comp_sup'_eq_sup'_comp (γ := K)
    (Finset.univ_nonempty (α := Fin 3 × Fin 3))
    (f := fun p : Fin 3 × Fin 3 => |Cm p.1 p.2|) (fun x => |k| * x)
    (fun x y => mul_max_of_nonneg x y (abs_nonneg k))
  simp only [Function.comp_def] at h
  unfold conicMaxAbs
  rw [h]
  congr 1
  funext p
  simp [Matrix.smul_apply, abs_mul]

theorem det_smul_fin3 {K : Type} [LinearOrderedField K]
    (k : K) (Cm : Matrix (Fin 3) (Fin 3) K) : (k • Cm).det = k ^ 3 * Cm.det := by
  rw [Matrix.det_smul]
  norm_num

/-- C6: `normalize` is idempotent (exactly, hence in particular up to
tolerance) and preserves both the `isEllipse` and the `isDegenerate`
classification of the conic. -/
theorem normalize_idempotent_and_preserves_classification {K : Type} [LinearOrderedField K]
    (c : DualConic K) :
    c.normalize.normalize = c.normalize ∧
    (c.normalize.isEllipse ↔ c.isEllipse) ∧
    (c.normalize.isDegenerate ↔ c.isDegenerate) := by
  by_cases hs : conicMaxAbs c.dC = 0
  · have hC : c.dC = 0 := (conicMaxAbs_eq_zero_iff c.dC).mp hs
    have hnorm : c.normalize = ⟨0⟩ := by
      simp [DualConic.normalize, hC]
    refine ⟨?_, ?_, ?_⟩
    · rw [hnorm]
      simp [DualConic.normalize, conicMaxAbs]
    · rw [hnorm]
      simp [DualConic.isEllipse, DualConic.isDegenerate, hC, Matrix.det_zero]
    · rw [hnorm]
      simp [DualConic.isDegenerate, hC, Matrix.det_zero]
  · have hpos : 0 < conicMaxAbs c.dC :=
      lt_of_le_of_ne (conicMaxAbs_nonneg c.dC) (Ne.symm hs)
    have hinv : (0 : K) < (conicMaxAbs c.dC)⁻¹ := inv_pos.mpr hpos
    have hnorm1 : conicMaxAbs c.normalize.dC = 1 := by
      show conicMaxAbs ((conicMaxAbs c.dC)⁻¹ • c.dC) = 1
      rw [conicMaxAbs_smul, abs_of_pos hinv, inv_mul_cancel₀ hs]
    refine ⟨?_, ?_, ?_⟩
    · show DualConic.mk ((conicMaxAbs c.normalize.dC)⁻¹ • c.normalize.dC) = c.normalize
      rw [hnorm1]
      simp
    · have hdeg : c.normalize.isDegenerate ↔ c.isDegenerate := by
        show ((conicMaxAbs c.dC)⁻¹ • c.dC).det = 0 ↔ c.dC.det = 0
        rw [det_smul_fin3]
        constructor
        · intro h
          rcases mul_eq_zero.mp h with h1 | h1
          · exact absurd h1 (pow_ne_zero 3 (ne_of_gt hinv))
          · exact h1
        · intro h
          rw [h, mul_zero]
      have hlead : (0 < c.normalize.dC 0 0 * c.normalize.dC 1 1 -
          c.normalize.dC 0 1 * c.normalize.dC 1 0) ↔
          (0 < c.dC 0 0 * c.dC 1 1 - c.dC 0 1 * c.dC 1 0) := by
        show (0 < ((conicMaxAbs c.dC)⁻¹ • c.dC) 0 0 * ((conicMaxAbs c.dC)⁻¹ • c.dC) 1 1 -
            ((conicMaxAbs c.dC)⁻¹ • c.dC) 0 1 * ((conicMaxAbs c.dC)⁻¹ • c.dC) 1 0) ↔ _
        have hsq : (0 : K) < (conicMaxAbs c.dC)⁻¹ ^ 2 := pow_pos hinv 2
        have heq : ((conicMaxAbs c.dC)⁻¹ • c.dC) 0 0 * ((conicMaxAbs c.dC)⁻¹ • c.dC) 1 1 -
            ((conicMaxAbs c.dC)⁻¹ • c.dC) 0 1 * ((conicMaxAbs c.dC)⁻¹ • c.dC) 1 0 =
            (conicMaxAbs c.dC)⁻¹ ^ 2 * (c.dC 0 0 * c.dC 1 1 - c.dC 0 1 * c.dC 1 0) := by
          simp [Matrix.smul_apply, smul_eq_mul]
          ring
        rw [heq]
        exact mul_pos_iff_of_pos_left hsq
      exact and_congr hdeg.not hlead
    · show ((conicMaxAbs c.dC)⁻¹ • c.dC).det = 0 ↔ c.dC.det = 0
      rw [det_smul_fin3]
      constructor
      · intro h
        rcases mul_eq_zero.mp h with h1 | h1
        · exact absurd h1 (pow_ne_zero 3 (ne_of_gt hinv))
        · exact h1
      · intro h
        rw [h, mul_zero]

/-- C7: provided the host's pose retraction pair is inverse (spec §6),
`localCoordinates` is the inverse of `retract` on quadrics: retracting a
9-dimensional tangent delta and taking local coordinates returns the
original delta (exactly, hence in particular within tolerance). -/
theorem quadric_localCoordinates_retract {P K : Type} [LinearOrderedField K]
    (ops : PoseOps P K)
    (hops : ∀ (p : P) (d : Fin 6 → K), ops.localCoordinates p (ops.retract p d) = d)
    (q : QuadricPR P K) (delta : Fin 9 → K) :
    QuadricPR.localCoordinates ops q (QuadricPR.retract ops q delta) = delta := by
  funext i
  unfold QuadricPR.localCoordinates QuadricPR.retract
  by_cases h : (i : ℕ) < 6
  · rw [dif_pos h]
    simp only [hops]
    exact congrArg delta (Fin.ext (by simp))
  · rw [dif_neg h]
    simp only [add_sub_cancel_left]
    congr 1
    apply Fin.ext
    simp only [Fin.val_mk]
    omega

/-- Witness for C7: the round trip at a concrete translation-style pose
manifold, quadric and tangent vector. -/
theorem quadric_localCoordinates_retract_witness :
    (∀ (p : Fin 6 → ℚ) (d : Fin 6 → ℚ),
      (PoseOps.mk (fun p d => fun j => p j + d j) (fun p p2 => fun j => p2 j - p j)
        : PoseOps (Fin 6 → ℚ) ℚ).localCoordinates p
        ((PoseOps.mk (fun p d => fun j => p j + d j)
          (fun p p2 => fun j => p2 j - p j)).retract p d) = d) ∧
    QuadricPR.localCoordinates
      (PoseOps.mk (fun p d => fun j => p j + d j) (fun p p2 => fun j => p2 j - p j))
      ⟨fun _ => 5, fun _ => 1⟩
      (QuadricPR.retract
        (PoseOps.mk (fun p d => fun j => p j + d j) (fun p p2 => fun j => p2 j - p j))
        ⟨fun _ => 5, fun _ => 1⟩ (fun i : Fin 9 => ((i : ℕ) : ℚ))) = fun i : Fin 9 => ((i : ℕ) : ℚ) := by
  have hops : ∀ (p : Fin 6 → ℚ) (d : Fin 6 → ℚ),
      (PoseOps.mk (fun p d => fun j => p j + d j) (fun p p2 => fun j => p2 j - p j)
        : PoseOps (Fin 6 → ℚ) ℚ).localCoordinates p
        ((PoseOps.mk (fun p d => fun j => p j + d j)
          (fun p p2 => fun j => p2 j - p j)).retract p d) = d := by
    intro p d
    funext j
    simp
  exact ⟨hops, quadric_localCoordinates_retract _ hops ⟨fun _ => 5, fun _ => 1⟩ _⟩

theorem tangency_root_plus (a b c2 : ℝ) (h : 0 ≤ b ^ 2 - a * c2) (hc : c2 ≠ 0) :
    c2 * ((b + Real.sqrt (b ^ 2 - a * c2)) / c2) ^ 2
      - 2 * b * ((b + Real.sqrt (b ^ 2 - a * c2)) / c2) + a = 0 := by
  have hs : Real.sqrt (b ^ 2 - a * c2) ^ 2 = b ^ 2 - a * c2 := Real.sq_sqrt h
  field_simp
  nlinarith [hs]

theorem tangency_root_minus (a b c2 : ℝ) (h : 0 ≤ b ^ 2 - a * c2) (hc : c2 ≠ 0) :
    c2 * ((b - Real.sqrt (b ^ 2 - a * c2)) / c2) ^ 2
      - 2 * b * ((b - Real.sqrt (b ^ 2 - a * c2)) / c2) + a = 0 := by
  have hs : Real.sqrt (b ^ 2 - a * c2) ^ 2 = b ^ 2 - a * c2 := Real.sq_sqrt h
  field_simp
  nlinarith [hs]

/-- C5: every box produced by bounds-extraction satisfies xmin ≤ xmax and
ymin ≤ ymax; moreover the box is not arbitrary — each vertical edge value
solves the vertical tangent-line condition and each horizontal edge value
the horizontal one, and on a well-posed conic `bounds` succeeds with
exactly this box. -/
theorem specBounds_box_ordered (c : DualConic ℝ) (h : BoundsWellPosed c.dC) :
    specBoundsE c = Except.ok (specBounds c.dC) ∧
    (specBounds c.dC).xmin ≤ (specBounds c.dC).xmax ∧
    (specBounds c.dC).ymin ≤ (specBounds c.dC).ymax ∧
    (c.dC 2 2 * (specBounds c.dC).xmin ^ 2 - 2 * c.dC 0 2 * (specBounds c.dC).xmin
      + c.dC 0 0 = 0) ∧
    (c.dC 2 2 * (specBounds c.dC).xmax ^ 2 - 2 * c.dC 0 2 * (specBounds c.dC).xmax
      + c.dC 0 0 = 0) ∧
    (c.dC 2 2 * (specBounds c.dC).ymin ^ 2 - 2 * c.dC 1 2 * (specBounds c.dC).ymin
      + c.dC 1 1 = 0) ∧
    (c.dC 2 2 * (specBounds c.dC).ymax ^ 2 - 2 * c.dC 1 2 * (specBounds c.dC).ymax
      + c.dC 1 1 = 0) := by
  obtain ⟨hx, hy, h22⟩ := h
  have hrootxp := tangency_root_plus (c.dC 0 0) (c.dC 0 2) (c.dC 2 2) hx h22
  have hrootxm := tangency_root_minus (c.dC 0 0) (c.dC 0 2) (c.dC 2 2) hx h22
  have hrootyp := tangency_root_plus (c.dC 1 1) (c.dC 1 2) (c.dC 2 2) hy h22
  have hrootym := tangency_root_minus (c.dC 1 1) (c.dC 1 2) (c.dC 2 2) hy h22
  refine ⟨?_, min_le_max, min_le_max, ?_, ?_, ?_, ?_⟩
  · rw [specBoundsE, if_pos ⟨hx, hy, h22⟩]
  · rcases min_choice ((c.dC 0 2 + Real.sqrt (discX c.dC)) / c.dC 2 2)
      ((c.dC 0 2 - Real.sqrt (discX c.dC)) / c.dC 2 2) with hm | hm
    · show c.dC 2 2 * (min _ _) ^ 2 - _ * (min _ _) + _ = 0
      rw [hm]
      exact hrootxp
    · show c.dC 2 2 * (min _ _) ^ 2 - _ * (min _ _) + _ = 0
      rw [hm]
      exact hrootxm
  · rcases max_choice ((c.dC 0 2 + Real.sqrt (discX c.dC)) / c.dC 2 2)
      ((c.dC 0 2 - Real.sqrt (discX c.dC)) / c.dC 2 2) with hm | hm
    · show c.dC 2 2 * (max _ _) ^ 2 - _ * (max _ _) + _ = 0
      rw [hm]
      exact hrootxp
    · show c.dC 2 2 * (max _ _) ^ 2 - _ * (max _ _) + _ = 0
      rw [hm]
      exact hrootxm
  · rcases min_choice ((c.dC 1 2 + Real.sqrt (discY c.dC)) / c.dC 2 2)
      ((c.dC 1 2 - Real.sqrt (discY c.dC)) / c.dC 2 2) with hm | hm
    · show c.dC 2 2 * (min _ _) ^ 2 - _ * (min _ _) + _ = 0
      rw [hm]
      exact hrootyp
    · show c.dC 2 2 * (min _ _) ^ 2 - _ * (min _ _) + _ = 0
      rw [hm]
      exact hrootym
  · rcases max_choice ((c.dC 1 2 + Real.sqrt (discY c.dC)) / c.dC 2 2)
      ((c.dC 1 2 - Real.sqrt (discY c.dC)) / c.dC 2 2) with hm | hm
    · show c.dC 2 2 * (max _ _) ^ 2 - _ * (max _ _) + _ = 0
      rw [hm]
      exact hrootyp
    · show c.dC 2 2 * (max _ _) ^ 2 - _ * (max _ _) + _ = 0
      rw [hm]
      exact hrootym

/-- Witness for C5 at a concrete well-posed conic. -/
theorem specBounds_box_ordered_witness :
    BoundsWellPosed boundsWitnessConic ∧
    (specBounds boundsWitnessConic).xmin ≤ (specBounds boundsWitnessConic).xmax ∧
    (specBounds boundsWitnessConic).ymin ≤ (specBounds boundsWitnessConic).ymax := by
  have hwp : BoundsWellPosed boundsWitnessConic := by
    refine ⟨?_, ?_, ?_⟩
    · show (0 : ℝ) ≤ boundsWitnessConic 0 2 ^ 2 - boundsWitnessConic 0 0 * boundsWitnessConic 2 2
      simp [boundsWitnessConic]
    · show (0 : ℝ) ≤ boundsWitnessConic 1 2 ^ 2 - boundsWitnessConic 1 1 * boundsWitnessConic 2 2
      simp [boundsWitnessConic]
    · show boundsWitnessConic 2 2 ≠ 0
      simp [boundsWitnessConic]
  exact ⟨hwp, (specBounds_box_ordered ⟨boundsWitnessConic⟩ hwp).2.1,
    (specBounds_box_ordered ⟨boundsWitnessConic⟩ hwp).2.2.1⟩

theorem specProjectConic_camera_at_center {K : Type} [LinearOrderedField K]
    (q : ConstrainedDualQuadric K) (p : Pose3 K) (cal : Cal3S2 K)
    (hcenter : p.t = q.pose.t) :
    specProjectConic q p cal =
      (cal.matrix * (p.R.transpose * q.pose.R)) *
        Matrix.diagonal (fun i => q.radii i ^ 2) *
        (cal.matrix * (p.R.transpose * q.pose.R)).transpose := by
  have hEZ : p.extrinsic * q.poseMatrix =
      Matrix.fromColumns (p.R.transpose * q.pose.R) 0 := by
    unfold Pose3.extrinsic ConstrainedDualQuadric.poseMatrix
    rw [Matrix.mul_assoc, Matrix.fromColumns_mul_fromBlocks]
    simp only [Matrix.one_mul, Matrix.mul_one, Matrix.mul_zero, add_zero]
    have hcol : colVec q.pose.t + colVec (fun i => -(p.t i)) = 0 := by
      ext i j
      simp [colVec, hcenter]
    rw [hcol, Matrix.mul_fromColumns, Matrix.mul_zero]
  have hmid : p.extrinsic * q.dualMatrix * p.extrinsic.transpose =
      (p.R.transpose * q.pose.R) * Matrix.diagonal (fun i => q.radii i ^ 2) *
        (p.R.transpose * q.pose.R).transpose := by
    unfold ConstrainedDualQuadric.dualMatrix
    calc p.extrinsic *
          (q.poseMatrix * Matrix.fromBlocks (Matrix.diagonal fun i => q.radii i ^ 2) 0 0 (-1) *
            q.poseMatrix.transpose) * p.extrinsic.transpose
        = (p.extrinsic * q.poseMatrix) *
            Matrix.fromBlocks (Matrix.diagonal fun i => q.radii i ^ 2) 0 0 (-1) *
            (p.extrinsic * q.poseMatrix).transpose := by
          simp only [Matrix.transpose_mul, Matrix.mul_assoc]
      _ = Matrix.fromColumns (p.R.transpose * q.pose.R) 0 *
            Matrix.fromBlocks (Matrix.diagonal fun i => q.radii i ^ 2) 0 0 (-1) *
            (Matrix.fromColumns (p.R.transpose * q.pose.R) 0).transpose := by rw [hEZ]
      _ = Matrix.fromColumns
            ((p.R.transpose * q.pose.R) * Matrix.diagonal (fun i => q.radii i ^ 2)) 0 *
            Matrix.fromRows (p.R.transpose * q.pose.R).transpose 0 := by
          rw [Matrix.fromColumns_mul_fromBlocks, Matrix.transpose_fromColumns,
            Matrix.transpose_zero]
          congr 1
          simp
      _ = (p.R.transpose * q.pose.R) * Matrix.diagonal (fun i => q.radii i ^ 2) *
            (p.R.transpose * q.pose.R).transpose := by
          rw [Matrix.fromColumns_mul_fromRows]
          simp
  unfold specProjectConic
  calc (cal.matrix * p.extrinsic) * q.dualMatrix * (cal.matrix * p.extrinsic).transpose
      = cal.matrix * (p.extrinsic * q.dualMatrix * p.extrinsic.transpose) *
          cal.matrix.transpose := by
        simp only [Matrix.transpose_mul, Matrix.transpose_transpose, Matrix.mul_assoc]
    _ = cal.matrix *
          ((p.R.transpose * q.pose.R) * Matrix.diagonal (fun i => q.radii i ^ 2) *
            (p.R.transpose * q.pose.R).transpose) * cal.matrix.transpose := by rw [hmid]
    _ = (cal.matrix * (p.R.transpose * q.pose.R)) *
          Matrix.diagonal (fun i => q.radii i ^ 2) *
          (cal.matrix * (p.R.transpose * q.pose.R)).transpose := by
        simp only [Matrix.transpose_mul, Matrix.transpose_transpose, Matrix.mul_assoc]

theorem quadform_pos_of_unit_det {K : Type} [LinearOrderedField K]
    (A : Matrix (Fin 3) (Fin 3) K) (d : Fin 3 → K) (hA : IsUnit A.det)
    (hd : ∀ i, 0 < d i) (v : Fin 3 → K) (hv : v ≠ 0) :
    0 < Matrix.dotProduct v ((A * Matrix.diagonal d * A.transpose).mulVec v) := by
  set w := A.transpose.mulVec v with hw_def
  have hw : w ≠ 0 := by
    intro h0
    apply hv
    have hunit : IsUnit A.transpose.det := by rwa [Matrix.det_transpose]
    have h1 : A.transpose⁻¹ * A.transpose = 1 := Matrix.nonsing_inv_mul _ hunit
    calc v = (1 : Matrix (Fin 3) (Fin 3) K).mulVec v := (Matrix.one_mulVec v).symm
      _ = (A.transpose⁻¹ * A.transpose).mulVec v := by rw [h1]
      _ = A.transpose⁻¹.mulVec (A.transpose.mulVec v) := (Matrix.mulVec_mulVec v _ _).symm
      _ = A.transpose⁻¹.mulVec 0 := by rw [← hw_def, h0]
      _ = 0 := Matrix.mulVec_zero _
  have heq : Matrix.dotProduct v ((A * Matrix.diagonal d * A.transpose).mulVec v) =
      Matrix.dotProduct w ((Matrix.diagonal d).mulVec w) := by
    rw [← Matrix.mulVec_mulVec, ← Matrix.mulVec_mulVec, Matrix.dotProduct_mulVec,
      ← Matrix.mulVec_transpose, hw_def]
  rw [heq]
  have hexp : Matrix.dotProduct w ((Matrix.diagonal d).mulVec w) =
      d 0 * w 0 * w 0 + d 1 * w 1 * w 1 + d 2 * w 2 * w 2 := by
    simp only [Matrix.dotProduct, Matrix.mulVec_diagonal, Fin.sum_univ_three]
    ring
  rw [hexp]
  have hcases : w 0 ≠ 0 ∨ w 1 ≠ 0 ∨ w 2 ≠ 0 := by
    by_contra hall
    push_neg at hall
    apply hw
    funext i
    fin_cases i
    · exact hall.1
    · exact hall.2.1
    · exact hall.2.2
  have t0 : 0 ≤ d 0 * w 0 * w 0 := by
    rcases le_or_lt 0 (w 0) with h | h
    · exact mul_nonneg (mul_nonneg (le_of_lt (hd 0)) h) h
    · exact le_of_lt (mul_pos_of_neg_of_neg (mul_neg_of_pos_of_neg (hd 0) h) h)
  have t1 : 0 ≤ d 1 * w 1 * w 1 := by
    rcases le_or_lt 0 (w 1) with h | h
    · exact mul_nonneg (mul_nonneg (le_of_lt (hd 1)) h) h
    · exact le_of_lt (mul_pos_of_neg_of_neg (mul_neg_of_pos_of_neg (hd 1) h) h)
  have t2 : 0 ≤ d 2 * w 2 * w 2 := by
    rcases le_or_lt 0 (w 2) with h | h
    · exact mul_nonneg (mul_nonneg (le_of_lt (hd 2)) h) h
    · exact le_of_lt (mul_pos_of_neg_of_neg (mul_neg_of_pos_of_neg (hd 2) h) h)
  rcases hcases with h | h | h
  · have : 0 < d 0 * w 0 * w 0 := by
      have := mul_self_pos.mpr h
      nlinarith [hd 0]
    linarith
  · have : 0 < d 1 * w 1 * w 1 := by
      have := mul_self_pos.mpr h
      nlinarith [hd 1]
    linarith
  · have : 0 < d 2 * w 2 * w 2 := by
      have := mul_self_pos.mpr h
      nlinarith [hd 2]
    linarith

theorem discX_neg_of_posdef {K : Type} [LinearOrderedField K]
    (Cm : Matrix (Fin 3) (Fin 3) K)
    (hpd : ∀ v : Fin 3 → K, v ≠ 0 → 0 < Matrix.dotProduct v (Cm.mulVec v))
    (hsym : Cm 2 0 = Cm 0 2) : discX Cm < 0 := by
  have h22 : 0 < Cm 2 2 := by
    have h := hpd ![0, 0, 1] (by
      intro h0
      have := congrFun h0 2
      simp at this)
    have hval : Matrix.dotProduct ![(0 : K), 0, 1] (Cm.mulVec ![0, 0, 1]) = Cm 2 2 := by
      simp [Matrix.dotProduct, Matrix.mulVec, Fin.sum_univ_three]
    rwa [hval] at h
  have hkey := hpd ![Cm 2 2, 0, -(Cm 0 2)] (by
    intro h0
    have := congrFun h0 0
    simp at this
    exact absurd this (ne_of_gt h22))
  have hval : Matrix.dotProduct ![Cm 2 2, (0 : K), -(Cm 0 2)]
      (Cm.mulVec ![Cm 2 2, 0, -(Cm 0 2)]) =
      Cm 2 2 * (Cm 0 0 * Cm 2 2 - Cm 0 2 ^ 2) := by
    simp [Matrix.dotProduct, Matrix.mulVec, Fin.sum_univ_three, hsym]
    ring
  rw [hval] at hkey
  have hsub : 0 < Cm 0 0 * Cm 2 2 - Cm 0 2 ^ 2 := by
    by_contra hle
    push_neg at hle
    nlinarith
  unfold discX
  linarith

/-- C4: with the projection and bounds operations modelled from the spec,
placing the camera pose at the ellipsoid's center (any valid quadric,
calibration and measured box, either mode) makes the projected dual conic
positive definite, so its tangent-line discriminant is negative, both
`bounds` and `smartBounds` reject it, and `evaluateError` returns the
fixed fallback (residual all 1000, correctly-shaped zero Jacobians) with
no uncaught error. -/
theorem evaluateError_camera_at_center {N K : Type} [LinearOrderedField K]
    (G : Geometry (Pose3 K) (ConstrainedDualQuadric K) (Cal3S2 K) K)
    (f : BoundingBoxFactor (Cal3S2 K) N K) (pose : Pose3 K)
    (quadric : ConstrainedDualQuadric K) (pr : ProjectResult K)
    (hproj : G.project quadric pose f.calibration = Except.ok pr)
    (hconic : pr.conic.dC = specProjectConic quadric pose f.calibration)
    (hbounds : ∀ c : DualConic K, ¬BoundsWellPosed c.dC →
      G.bounds c = Except.error QuadricProjectionException.degenerateConic)
    (hsmart : ∀ c : DualConic K, ¬BoundsWellPosed c.dC →
      ∃ e, G.smartBounds c f.calibration = Except.error e)
    (hR : pose.R * pose.R.transpose = 1)
    (hRq : quadric.pose.R * quadric.pose.R.transpose = 1)
    (hfx : f.calibration.fx ≠ 0) (hfy : f.calibration.fy ≠ 0)
    (hradii : ∀ i, 0 < quadric.radii i)
    (hcenter : pose.t = quadric.pose.t) (h1 h2 : Bool) :
    evaluateError G f pose quadric h1 h2 = fallbackOutput h1 h2 := by
  set A := f.calibration.matrix * (pose.R.transpose * quadric.pose.R) with hA_def
  have hfact := specProjectConic_camera_at_center quadric pose f.calibration hcenter
  have hdetK : f.calibration.matrix.det = f.calibration.fx * f.calibration.fy := by
    simp [Cal3S2.matrix, Matrix.det_fin_three, Matrix.vecHead, Matrix.vecTail]
  have hdetR : pose.R.det * pose.R.transpose.det = 1 := by
    rw [← Matrix.det_mul, hR, Matrix.det_one]
  have hdetRq : quadric.pose.R.det * quadric.pose.R.transpose.det = 1 := by
    rw [← Matrix.det_mul, hRq, Matrix.det_one]
  have hAunit : IsUnit A.det := by
    rw [hA_def, Matrix.det_mul, Matrix.det_mul, hdetK]
    apply isUnit_iff_ne_zero.mpr
    apply mul_ne_zero
    · exact mul_ne_zero hfx hfy
    · apply mul_ne_zero
      · intro h0
        rw [Matrix.det_transpose] at h0
        rw [h0, zero_mul] at hdetR
        exact zero_ne_one hdetR
      · intro h0
        rw [h0, zero_mul] at hdetRq
        exact zero_ne_one hdetRq
  have hpd : ∀ v : Fin 3 → K, v ≠ 0 →
      0 < Matrix.dotProduct v ((specProjectConic quadric pose f.calibration).mulVec v) := by
    intro v hv
    rw [hfact]
    exact quadform_pos_of_unit_det A (fun i => quadric.radii i ^ 2) hAunit
      (fun i => pow_pos (hradii i) 2) v hv
  have hsym : (specProjectConic quadric pose f.calibration) 2 0 =
      (specProjectConic quadric pose f.calibration) 0 2 := by
    have htr : (specProjectConic quadric pose f.calibration).transpose =
        specProjectConic quadric pose f.calibration := by
      rw [hfact]
      simp only [Matrix.transpose_mul, Matrix.transpose_transpose,
        Matrix.diagonal_transpose, Matrix.mul_assoc]
    have h := congrFun (congrFun htr 2) 0
    rw [Matrix.transpose_apply] at h
    exact h.symm
  have hdisc : discX (specProjectConic quadric pose f.calibration) < 0 :=
    discX_neg_of_posdef _ hpd hsym
  have hnwp : ¬BoundsWellPosed pr.conic.dC := by
    rw [hconic]
    intro hwp
    exact absurd hwp.1 (not_le.mpr hdisc)
  have hbc : ∃ e2, boundsCall G f pr.conic = Except.error e2 := by
    cases het : f.errorType with
    | SIMPLE =>
      refine ⟨QuadricProjectionException.degenerateConic, ?_⟩
      simp only [boundsCall, het]
      exact hbounds pr.conic hnwp
    | COMPLEX =>
      obtain ⟨e, hsb⟩ := hsmart pr.conic hnwp
      refine ⟨QuadricProjectionException.smartBoundsFailed, ?_⟩
      simp only [boundsCall, het, hsb]
  obtain ⟨e2, hbcv⟩ := hbc
  have hbody : evaluateErrorBody G f pose quadric h1 h2 = Except.error e2 := by
    simp only [evaluateErrorBody, hproj, hbcv]
  unfold evaluateError
  rw [hbody]

/-- Witness for C4: the camera at the witness ellipsoid's center yields
the fallback output. -/
theorem evaluateError_camera_at_center_witness :
    centerPose.t = centerQuadric.pose.t ∧
    evaluateError centerGeometry centerFactor centerPose centerQuadric true true =
      fallbackOutput true true :=
  ⟨rfl, evaluateError_camera_at_center centerGeometry centerFactor centerPose centerQuadric
    ⟨⟨specProjectConic centerQuadric centerPose centerCal⟩, 0, 0⟩ rfl rfl
    (fun c h => by simp [centerGeometry, h])
    (fun c h => ⟨QuadricProjectionException.extremaExtractionFailure, by
      simp [centerGeometry, h]⟩)
    (by simp [centerPose]) (by simp [centerQuadric]) one_ne_zero one_ne_zero
    (fun i => zero_lt_one) rfl true true⟩

end GtsamQuadrics
